import Mathlib

/-!
Shallow embedding of the media-organiser tool (src/src/python/main.py) and
verification of the frozen claims about its specification.

Modelling conventions:
* Python strings are Lean `String`s; `str.strip()` is `pyStrip`, `str.lower()`
  is `pyLower`, f-string interpolation of an integer is `Nat.repr`.
* A filesystem path (`pathlib.Path`) is a list of components (`PyPath`);
  `p / q` is list append, `p.parent` is `dropLast`, `p.name` is the last
  component.
* `datetime` values are `PyDateTime` records; `strftime('%Y%m%d')` is
  `strftimeYMD`; `.replace(hour=0, minute=0, second=0, microsecond=0)` is
  `truncateDay`.
* External, fallible operations (metadata libraries, `stat`, `disk_usage`,
  probe-file creation, `dateutil.parser.parse`) are oracles: an `Option`
  result where `none` is a raised exception or an absent value, or a `Bool`
  outcome for a check.  The filesystem is an explicit record of files and
  directories; mutations and log records are explicit events.
-/

/-! ### Python string primitives -/

/-- Python `str.strip()`: drop whitespace from both ends. -/
def pyStrip (s : String) : String :=
  ⟨((s.data.dropWhile Char.isWhitespace).reverse.dropWhile Char.isWhitespace).reverse⟩

/-- Python `str.lower()`. -/
def pyLower (s : String) : String :=
  ⟨s.data.map Char.toLower⟩

/-- Helper for `value.replace(':', ' ', 2)`: replace the first `n` colons by spaces. -/
def replaceColonsAux : Nat → List Char → List Char
  | _, [] => []
  | 0, cs => cs
  | n+1, c :: cs => if c = ':' then ' ' :: replaceColonsAux n cs else c :: replaceColonsAux (n+1) cs

/-- `str(value).replace(':', ' ', 2)` from `get_exif_date`. -/
def replaceColons2 (s : String) : String :=
  ⟨replaceColonsAux 2 s.data⟩

/-- Zero-pad a rendered number on the left to width `w` (as `strftime` does). -/
def leftPad0 (w : Nat) (s : String) : String :=
  ⟨List.replicate (w - s.data.length) '0'⟩ ++ s

/-! ### Paths -/

/-- A `pathlib.Path`, as its list of components. -/
abbrev PyPath := List String

/-- `Path.parent`. -/
def parentDir (p : PyPath) : PyPath := p.dropLast

/-- `Path.name`: the final component (empty for the root). -/
def pathName (p : PyPath) : String := p.getLastD ""

/-- Index of the last '.' in a list of characters, if any. -/
def lastDotPos : List Char → Option Nat
  | [] => none
  | c :: cs =>
    match lastDotPos cs with
    | some i => some (i + 1)
    | none => if c = '.' then some 0 else none

/-- `(Path.stem, Path.suffix)`: split a filename at the last dot, provided the
dot is neither the first nor the last character (pathlib's rule). -/
def splitExt (name : String) : String × String :=
  match lastDotPos name.data with
  | some i =>
    if 0 < i ∧ i + 1 < name.data.length then
      (⟨name.data.take i⟩, ⟨name.data.drop i⟩)
    else (name, "")
  | none => (name, "")

/-! ### Dates -/

/-- A Python `datetime` value. -/
structure PyDateTime where
  year : Nat
  month : Nat
  day : Nat
  hour : Nat
  minute : Nat
  second : Nat
  microsecond : Nat
deriving DecidableEq

/-- `date.replace(hour=0, minute=0, second=0, microsecond=0)`. -/
def truncateDay (d : PyDateTime) : PyDateTime :=
  ⟨d.year, d.month, d.day, 0, 0, 0, 0⟩

/-- `date.strftime('%Y%m%d')`. -/
def strftimeYMD (d : PyDateTime) : String :=
  leftPad0 4 (Nat.repr d.year) ++ leftPad0 2 (Nat.repr d.month) ++ leftPad0 2 (Nat.repr d.day)

/-! ### Configuration -/

/-- The `Config` dataclass. -/
structure Config where
  image_extensions : List String
  max_project_name_length : Nat
  dry_run : Bool
  move_files : Bool
  name : Option String
  source_folder : Option String
  destination_folder : Option String

/-- `Config.default()`. -/
def Config.default : Config :=
  ⟨[".jpg", ".jpeg", ".raf", ".raw", ".cr2", ".nef", ".arw", ".gpr",
    ".mp4", ".mov", ".avi", ".mkv", ".wmv", ".flv", ".webm", ".m4v"],
   50, false, false, none, none, none⟩

/-- The configuration used by the `group` command: `Config.default()` with
`move_files` set from the `--move` flag. -/
def groupConfig (move : Bool) : Config :=
  ⟨Config.default.image_extensions, Config.default.max_project_name_length,
   Config.default.dry_run, move, Config.default.name,
   Config.default.source_folder, Config.default.destination_folder⟩

/-! ### Date Resolver inputs -/

/-- Result of a successful `rawpy.imread`: the truthy-guarded
`raw.metadata.datetime_original` chain collapsed to an optional string. -/
structure RawData where
  datetime_original : Option String
deriving DecidableEq

/-- A `pymediainfo` attribute value: a string or a list of strings. -/
inductive VideoVal where
  | str (v : String)
  | list (vs : List String)
deriving DecidableEq

/-- One `pymediainfo` track: its `track_type` and its date-like attributes. -/
structure Track where
  track_type : String
  fields : List (String × VideoVal)
deriving DecidableEq

/-- Everything `get_image_date` can observe about one file.  `none` in an
oracle field means the corresponding library call raised. -/
structure MediaInput where
  ext : String
  rawOpen : Option RawData
  imgOpen : Option (Option (List (String × String)))
  videoParse : Option (List Track)
  birthtime : Option PyDateTime
  now : PyDateTime

/-- Dictionary lookup in an association list. -/
def lookupStr (l : List (String × String)) (k : String) : Option String :=
  (l.find? (fun p => p.1 = k)).map (fun p => p.2)

/-- `getattr(track, field, None)`. -/
def lookupVV (l : List (String × VideoVal)) (k : String) : Option VideoVal :=
  (l.find? (fun p => p.1 = k)).map (fun p => p.2)

/-! ### EXIF extractor (`get_exif_date`) -/

/-- The EXIF date fields tried, in order of preference. -/
def exifDateFields : List String :=
  ["DateTimeOriginal", "DateTimeDigitized", "DateTime"]

/-- The `for field in date_fields` loop of `get_exif_date`: skip an absent or
falsy-or-blank value, return the first successfully parsed one, and on a parse
error continue with the next field. -/
def exifLoop (parse : String → Option PyDateTime) (tags : List (String × String)) :
    List String → Option PyDateTime
  | [] => none
  | field :: rest =>
    match lookupStr tags field with
    | none => exifLoop parse tags rest
    | some v =>
      if v ≠ "" ∧ pyStrip v ≠ "" then
        match parse (replaceColons2 v) with
        | some d => some d
        | none => exifLoop parse tags rest
      else exifLoop parse tags rest

/-- `get_exif_date`: `none` when `getexif` raised, when the EXIF dictionary is
falsy, or when no field yields a parseable date. -/
def get_exif_date (parse : String → Option PyDateTime)
    (exifData : Option (List (String × String))) : Option PyDateTime :=
  match exifData with
  | none => none
  | some tags => if tags = [] then none else exifLoop parse tags exifDateFields

/-- One field attempt of the EXIF loop as a single optional outcome, used to
state the first-success characterisation. -/
def exifFieldOutcome (parse : String → Option PyDateTime)
    (tags : List (String × String)) (field : String) : Option PyDateTime :=
  match lookupStr tags field with
  | none => none
  | some v =>
    if v ≠ "" ∧ pyStrip v ≠ "" then parse (replaceColons2 v) else none

/-! ### Video extractor -/

/-- The video date fields tried, in the source's order. -/
def videoDateFields : List String :=
  ["encoded_date", "tagged_date", "file_last_modification_date",
   "file_creation_date", "file_last_modification_date__local",
   "file_creation_date__local", "other_file_creation_date",
   "other_file_last_modification_date"]

/-- Truthiness filter and list-to-first-element step applied to a video
attribute value before parsing. -/
def videoValExtract : VideoVal → Option String
  | .str v => if v = "" then none else some v
  | .list [] => none
  | .list (v :: _) => some v

/-- The `for field in [...]` loop over one track: skip absent or falsy values,
return the first successfully parsed one, continue on parse errors. -/
def videoFieldLoop (parse : String → Option PyDateTime) (t : Track) :
    List String → Option PyDateTime
  | [] => none
  | f :: rest =>
    match lookupVV t.fields f with
    | none => videoFieldLoop parse t rest
    | some v =>
      match videoValExtract v with
      | none => videoFieldLoop parse t rest
      | some s =>
        match parse s with
        | some d => some d
        | none => videoFieldLoop parse t rest

/-- The `for track in media_info.tracks` loop: only `General` tracks are
inspected, and a track yielding no date falls through to the next track. -/
def videoTrackLoop (parse : String → Option PyDateTime) :
    List Track → Option PyDateTime
  | [] => none
  | t :: ts =>
    if t.track_type = "General" then
      match videoFieldLoop parse t videoDateFields with
      | some d => some d
      | none => videoTrackLoop parse ts
    else videoTrackLoop parse ts

/-- One field attempt over one track as a single optional outcome. -/
def videoFieldOutcome (parse : String → Option PyDateTime) (t : Track)
    (f : String) : Option PyDateTime :=
  match lookupVV t.fields f with
  | none => none
  | some v =>
    match videoValExtract v with
    | none => none
    | some s => parse s

/-- The field order asserted by the spec sentence for claim C4: encoded date,
tagged date, modification date (UTC then local), creation date (UTC then
local).  Written from the spec's words, for comparison with the source's
`videoDateFields`. -/
def specVideoDateFields : List String :=
  ["encoded_date", "tagged_date", "file_last_modification_date",
   "file_last_modification_date__local", "file_creation_date",
   "file_creation_date__local"]

/-- The video cascade as the spec's words describe it (claim C4): the same
first-success loop but over `specVideoDateFields`. -/
def specVideoTrackLoop (parse : String → Option PyDateTime) :
    List Track → Option PyDateTime
  | [] => none
  | t :: ts =>
    if t.track_type = "General" then
      match specVideoDateFields.findSome? (videoFieldOutcome parse t) with
      | some d => some d
      | none => specVideoTrackLoop parse ts
    else specVideoTrackLoop parse ts

/-! ### Date Resolver (`get_image_date`) -/

def rawExtensions : List String := [".raf", ".gpr", ".raw", ".cr2", ".nef", ".arw"]

def jpegExtensions : List String := [".jpg", ".jpeg"]

def videoExtensions : List String :=
  [".mp4", ".mov", ".avi", ".mkv", ".wmv", ".flv", ".webm", ".m4v"]

/-- The RAW branch of `get_image_date`: any failure (library raise, absent or
falsy metadata, parse error) is absorbed to `none`. -/
def rawAttempt (parse : String → Option PyDateTime) (inp : MediaInput) :
    Option PyDateTime :=
  match inp.rawOpen with
  | none => none
  | some rd =>
    match rd.datetime_original with
    | none => none
    | some s => if s ≠ "" then parse s else none

/-- The fallback of `get_image_date`: `datetime.fromtimestamp(stat().st_birthtime)`,
and `datetime.now()` when that raises (the outer `except` handler). -/
def fallbackDate (inp : MediaInput) : PyDateTime :=
  match inp.birthtime with
  | some b => b
  | none => inp.now

/-- `get_image_date`.  The jpeg branch's `Image.open` is not guarded by an
inner handler, so its failure reaches the outer `except` and yields
`datetime.now()` directly, without trying the file-creation fallback. -/
def get_image_date (parse : String → Option PyDateTime) (inp : MediaInput) :
    PyDateTime :=
  let ext := pyLower inp.ext
  if ext ∈ rawExtensions then
    match rawAttempt parse inp with
    | some d => d
    | none => fallbackDate inp
  else if ext ∈ jpegExtensions then
    match inp.imgOpen with
    | none => inp.now
    | some exifData =>
      match get_exif_date parse exifData with
      | some d => d
      | none => fallbackDate inp
  else if ext ∈ videoExtensions then
    match inp.videoParse with
    | none => fallbackDate inp
    | some tracks =>
      match videoTrackLoop parse tracks with
      | some d => d
      | none => fallbackDate inp
  else fallbackDate inp

/-! ### Filesystem, events, environment -/

/-- The filesystem: the set of regular files and the set of directories. -/
structure FS where
  files : List PyPath
  dirs : List PyPath
deriving DecidableEq

/-- Observable actions of a run: log records and filesystem mutations. -/
inductive Event where
  | createdFolderLog (p : PyPath)
  | folderErrorLog (p : PyPath)
  | wouldTransfer (move : Bool) (src dst : PyPath)
  | diskCheckErrorLog
  | probe (dir : PyPath)
  | transferred (move : Bool) (src dst : PyPath)
  | processErrorLog (src : PyPath)
  | echoCompleted
deriving DecidableEq

/-- Whether an event touches the filesystem (probe file, copy, or move), as
opposed to a pure log or console record. -/
def Event.touchesFS : Event → Bool
  | .probe _ => true
  | .transferred _ _ _ => true
  | _ => false

/-- The typed errors of `safe_copy_file` and the folder-creation failure. -/
inductive PlaceError where
  | diskSpace
  | permission
  | mkdirFailed
deriving DecidableEq

/-- Oracles for the OS calls: `stat().st_size`, `shutil.disk_usage(..).free`
(`none` means the call raised) and whether a probe file can be created in a
directory. -/
structure Env where
  size : PyPath → Option Nat
  free : PyPath → Option Nat
  touchable : PyPath → Bool

/-- `has_enough_disk_space`: free space of the destination's parent strictly
above the source size; any exception logs an error and yields `False`. -/
def has_enough_disk_space (env : Env) (src dst : PyPath) : Bool × List Event :=
  match env.size src, env.free (parentDir dst) with
  | some sz, some fr => (decide (fr > sz), [])
  | some _, none => (false, [.diskCheckErrorLog])
  | none, _ => (false, [.diskCheckErrorLog])

/-- `can_write_to_directory`: create and remove a probe file; the touch attempt
itself is recorded as an event, its success is the oracle's verdict. -/
def can_write_to_directory (env : Env) (dir : PyPath) : Bool × List Event :=
  (env.touchable dir, [.probe dir])

def insertFile (fs : FS) (p : PyPath) : FS :=
  if p ∈ fs.files then fs else ⟨p :: fs.files, fs.dirs⟩

def removeFile (fs : FS) (p : PyPath) : FS :=
  ⟨fs.files.erase p, fs.dirs⟩

def insertDir (fs : FS) (d : PyPath) : FS :=
  if d ∈ fs.dirs then fs else ⟨fs.files, d :: fs.dirs⟩

/-- `mkdir(parents=True, exist_ok=True)`: create every ancestor of `p`. -/
def mkdirParents (fs : FS) (p : PyPath) : FS :=
  ((List.range p.length).map (fun i => p.take (i + 1))).foldl insertDir fs

/-- Result of one fallible filesystem-mutating call. -/
structure StepOut where
  fs : FS
  events : List Event
  err : Option PlaceError
deriving DecidableEq

/-- `safe_copy_file`: dry-run short-circuit, then the two pre-flight checks
(disk space, then writability), then `mkdir(parents=True)` and the transfer.
A failing check logs the processing error and raises the typed error. -/
def safe_copy_file (env : Env) (cfg : Config) (src dst : PyPath) (fs : FS) :
    StepOut :=
  if cfg.dry_run then
    ⟨fs, [.wouldTransfer cfg.move_files src dst], none⟩
  else
    let space := has_enough_disk_space env src dst
    if !space.1 then
      ⟨fs, space.2 ++ [.processErrorLog src], some .diskSpace⟩
    else
      let write := can_write_to_directory env (parentDir dst)
      if !write.1 then
        ⟨fs, space.2 ++ write.2 ++ [.processErrorLog src], some .permission⟩
      else
        let fs1 := mkdirParents fs (parentDir dst)
        if cfg.move_files then
          ⟨insertFile (removeFile fs1 src) dst,
           space.2 ++ write.2 ++ [.transferred true src dst], none⟩
        else
          ⟨insertFile fs1 dst,
           space.2 ++ write.2 ++ [.transferred false src dst], none⟩

/-- `create_date_folder`: build `{YYYYMMDD}_{project}` under `base`; unless in
dry-run mode, `mkdir(exist_ok=True)` creates it (failing when `base` itself is
missing, which logs an error and re-raises). -/
def create_date_folder (cfg : Config) (base : PyPath) (date : PyDateTime)
    (project_name : String) (fs : FS) :
    Except (List Event) (FS × PyPath × List Event) :=
  let date_folder := base ++ [strftimeYMD date ++ "_" ++ project_name]
  if cfg.dry_run then
    .ok (fs, date_folder, [.createdFolderLog date_folder])
  else if base ∈ fs.dirs then
    .ok (insertDir fs date_folder, date_folder, [.createdFolderLog date_folder])
  else
    .error [.folderErrorLog date_folder]

/-! ### Collision-free destination name -/

/-- The candidate destination paths of the `group` loop: first
`{folder_name}_{filename}`, then `{folder_name}_{stem}_{k}{suffix}` for
`k = 1, 2, ...`. -/
def destCand (folder : PyPath) (folder_name fname stem suffix : String) :
    Nat → PyPath
  | 0 => folder ++ [folder_name ++ "_" ++ fname]
  | k+1 => folder ++ [folder_name ++ "_" ++ stem ++ "_" ++ Nat.repr (k+1) ++ suffix]

/-- The `while dest_file.exists()` loop: starting at candidate `i`, advance
while the candidate exists.  `fuel` bounds the iteration count. -/
def findDestFrom (existing : List PyPath) (cand : Nat → PyPath) :
    Nat → Nat → PyPath
  | i, 0 => cand i
  | i, fuel+1 =>
    if cand i ∈ existing then findDestFrom existing cand (i + 1) fuel else cand i

/-- The destination chosen by the collision loop.  `existing.length + 1` steps
always suffice to reach a free candidate. -/
def findDest (existing : List PyPath) (folder : PyPath)
    (folder_name fname stem suffix : String) : PyPath :=
  findDestFrom existing (destCand folder folder_name fname stem suffix) 0
    (existing.length + 1)

/-! ### The `group` operation -/

/-- A JSON mapping value: `null` or a string. -/
inductive JsonVal where
  | null
  | str (v : String)
deriving DecidableEq

/-- `project_names.get(date_str)` followed by the `if not project_name`
truthiness test: only a non-empty string label survives. -/
def truthyLabel : Option JsonVal → Option String
  | some (.str v) => if v = "" then none else some v
  | _ => none

/-- One iteration of the `group_files` placement loop for one discovered file
with its resolved date. -/
def group_step (env : Env) (cfg : Config) (dest : PyPath)
    (mapping : String → Option JsonVal) (fs : FS)
    (x : PyPath × PyDateTime) : StepOut :=
  let date_str := strftimeYMD (truncateDay x.2)
  match truthyLabel (mapping date_str) with
  | none => ⟨fs, [], none⟩
  | some project_name =>
    match create_date_folder cfg dest x.2 project_name fs with
    | .error ev => ⟨fs, ev, some .mkdirFailed⟩
    | .ok (fs1, date_folder, ev1) =>
      let folder_name := strftimeYMD x.2 ++ "_" ++ project_name
      let fname := pathName x.1
      let se := splitExt fname
      let dest_file := findDest (fs1.files ++ fs1.dirs) date_folder folder_name
        fname se.1 se.2
      let r := safe_copy_file env cfg x.1 dest_file fs1
      ⟨r.fs, ev1 ++ r.events, r.err⟩

/-- Result of a whole `group` run: final filesystem, events, the uncaught
error if one aborted the loop, and whether the completion message was printed. -/
structure RunOut where
  fs : FS
  events : List Event
  err : Option PlaceError
  completed : Bool
deriving DecidableEq

/-- The `group_files` placement loop over the discovered files (with their
resolved dates), followed by `click.echo("Processing completed")`.  An
exception raised by a step propagates: the loop stops and the completion
message is never printed. -/
def group_run (env : Env) (cfg : Config) (dest : PyPath)
    (mapping : String → Option JsonVal) (fs : FS) :
    List (PyPath × PyDateTime) → RunOut
  | [] => ⟨fs, [.echoCompleted], none, true⟩
  | x :: rest =>
    let s := group_step env cfg dest mapping fs x
    match s.err with
    | some e => ⟨s.fs, s.events, some e, false⟩
    | none =>
      let r := group_run env cfg dest mapping s.fs rest
      ⟨r.fs, s.events ++ r.events, r.err, r.completed⟩

/-! ### Project-name assignment -/

/-- Lexicographic comparison of number lists, for `sorted(dates)`. -/
def listNatLe : List Nat → List Nat → Bool
  | [], _ => true
  | _ :: _, [] => false
  | a :: as_, b :: bs => if a < b then true else if b < a then false else listNatLe as_ bs

def dateFieldsList (d : PyDateTime) : List Nat :=
  [d.year, d.month, d.day, d.hour, d.minute, d.second, d.microsecond]

def dateLeb (a b : PyDateTime) : Bool :=
  listNatLe (dateFieldsList a) (dateFieldsList b)

def insertSortedDate (x : PyDateTime) : List PyDateTime → List PyDateTime
  | [] => [x]
  | y :: ys => if dateLeb x y then x :: y :: ys else y :: insertSortedDate x ys

/-- `sorted(dates)`. -/
def sortDates (l : List PyDateTime) : List PyDateTime :=
  l.foldr insertSortedDate []

/-- The `while True` prompt loop for one date: the first console response that
is neither over-long nor blank after stripping is accepted; `rs` is the stream
of responses, `none` means the operator never supplied a valid one. -/
def promptLoop (cfg : Config) (rs : List String) : Option String :=
  rs.find? (fun r =>
    !(decide (r.data.length > cfg.max_project_name_length)) && !(decide (pyStrip r = "")))

/-- The per-date prompting pass of `get_project_names_for_all_dates`. -/
def assignLoop (cfg : Config) (responses : PyDateTime → List String) :
    List PyDateTime → Option (List (String × String))
  | [] => some []
  | d :: ds =>
    match promptLoop cfg (responses d) with
    | some r =>
      match assignLoop cfg responses ds with
      | some rest => some ((strftimeYMD d, r) :: rest)
      | none => none
    | none => none

/-- `get_project_names_for_all_dates`: a configured global name is used for
every date with no validation; otherwise each date of the sorted unique dates
is assigned interactively. -/
def get_project_names_for_all_dates (cfg : Config) (dates : List PyDateTime)
    (responses : PyDateTime → List String) : Option (List (String × String)) :=
  match cfg.name with
  | some n => some (dates.map (fun d => (strftimeYMD d, n)))
  | none => assignLoop cfg responses (sortDates dates)

/-! ### Concrete fixtures for witnesses and counterexamples -/

/-- An environment where every check succeeds. -/
def envAllOk : Env := ⟨fun _ => some 1, fun _ => some 100, fun _ => true⟩

/-- An environment where the file `src/big.jpg` is larger than the free space
on the destination volume, while every other file fits. -/
def envTight : Env :=
  ⟨fun p => if p = ["src", "big.jpg"] then some 1000 else some 1,
   fun _ => some 500, fun _ => true⟩

/-- An environment where no directory is writable. -/
def envNoWrite : Env := ⟨fun _ => some 1, fun _ => some 100, fun _ => false⟩

/-- A destination filesystem holding just the empty destination root `out`. -/
def fsOut : FS := ⟨[], [["out"]]⟩

/-- A mapping file with the single entry `20230501 -> "W"`. -/
def mapW : String → Option JsonVal :=
  fun k => if k = "20230501" then some (.str "W") else none

/-- A mapping file whose `20230501` entry is a blank, whitespace-only label. -/
def mapBlank : String → Option JsonVal :=
  fun k => if k = "20230501" then some (.str " ") else none

/-- A mapping file whose `20230501` entry is the empty string. -/
def mapEmpty : String → Option JsonVal :=
  fun k => if k = "20230501" then some (.str "") else none

def dMay1 : PyDateTime := ⟨2023, 5, 1, 9, 0, 0, 0⟩

def dJun1 : PyDateTime := ⟨2023, 6, 1, 9, 0, 0, 0⟩

/-! ### Decimal rendering: `Nat.repr` is injective -/

theorem toDigitsCore_eq10 (f : Nat) : ∀ (n : Nat) (ds : List Char), n < f → n ≠ 0 →
    Nat.toDigitsCore 10 f n ds = ((Nat.digits 10 n).map Nat.digitChar).reverse ++ ds := by
  induction f with
  | zero => intro n ds hf hn; omega
  | succ f ih =>
    intro n ds hf hn
    rw [Nat.toDigitsCore]
    rw [Nat.digits_def' (by norm_num : (1:Nat) < 10) (Nat.pos_of_ne_zero hn)]
    by_cases h0 : n / 10 = 0
    · simp [h0]
    · have hlt : n / 10 < f := by
        have := Nat.div_lt_self (Nat.pos_of_ne_zero hn) (by norm_num : (1:Nat) < 10)
        omega
      simp only [h0, if_false]
      rw [ih (n / 10) _ hlt h0]
      simp

theorem repr_eq_digits (n : Nat) (hn : n ≠ 0) :
    (Nat.repr n).data = ((Nat.digits 10 n).map Nat.digitChar).reverse := by
  show (Nat.toDigits 10 n).asString.data = _
  rw [Nat.toDigits, toDigitsCore_eq10 (n+1) n [] (Nat.lt_succ_self n) hn]
  simp [List.asString]

theorem digitChar_inj_lt {a b : Nat} (ha : a < 10) (hb : b < 10)
    (h : Nat.digitChar a = Nat.digitChar b) : a = b := by
  interval_cases a <;> interval_cases b <;> first | rfl | (exact absurd h (by decide))

theorem map_digitChar_inj : ∀ (l1 l2 : List Nat), (∀ x ∈ l1, x < 10) → (∀ x ∈ l2, x < 10) →
    l1.map Nat.digitChar = l2.map Nat.digitChar → l1 = l2 := by
  intro l1
  induction l1 with
  | nil => intro l2 _ _ h; cases l2 <;> simp_all
  | cons a l ih =>
    intro l2 h1 h2 h
    cases l2 with
    | nil => simp_all
    | cons b l2t =>
      simp only [List.map_cons, List.cons.injEq] at h
      have hab : a = b := digitChar_inj_lt (h1 a (by simp)) (h2 b (by simp)) h.1
      have := ih l2t (fun x hx => h1 x (by simp [hx])) (fun x hx => h2 x (by simp [hx])) h.2
      simp [hab, this]

theorem natRepr_data_inj : ∀ (m n : Nat), (Nat.repr m).data = (Nat.repr n).data → m = n := by
  intro m n hd
  by_cases hm : m = 0 <;> by_cases hn : n = 0
  · omega
  · exfalso
    rw [hm] at hd
    rw [repr_eq_digits n hn] at hd
    have hrev : ((Nat.digits 10 n).map Nat.digitChar).reverse = ['0'] := by
      rw [← hd]; rfl
    have h2 : (Nat.digits 10 n).map Nat.digitChar = ['0'] := by
      have := congrArg List.reverse hrev
      simpa using this
    have h3 : Nat.digits 10 n = [0] := by
      have h4 : ([0] : List Nat).map Nat.digitChar = ['0'] := by rfl
      exact map_digitChar_inj _ _ (fun x hx => Nat.digits_lt_base (by norm_num) hx)
        (by intro x hx; simp at hx; omega) (h2.trans h4.symm)
    have := Nat.ofDigits_digits 10 n
    rw [h3] at this
    simp [Nat.ofDigits] at this
    omega
  · exfalso
    rw [hn] at hd
    rw [repr_eq_digits m hm] at hd
    have hrev : ((Nat.digits 10 m).map Nat.digitChar).reverse = ['0'] := by
      rw [hd]; rfl
    have h2 : (Nat.digits 10 m).map Nat.digitChar = ['0'] := by
      have := congrArg List.reverse hrev
      simpa using this
    have h3 : Nat.digits 10 m = [0] := by
      have h4 : ([0] : List Nat).map Nat.digitChar = ['0'] := by rfl
      exact map_digitChar_inj _ _ (fun x hx => Nat.digits_lt_base (by norm_num) hx)
        (by intro x hx; simp at hx; omega) (h2.trans h4.symm)
    have := Nat.ofDigits_digits 10 m
    rw [h3] at this
    simp [Nat.ofDigits] at this
    omega
  · rw [repr_eq_digits m hm, repr_eq_digits n hn] at hd
    have h2 := List.reverse_injective hd
    have h3 := map_digitChar_inj _ _ (fun x hx => Nat.digits_lt_base (by norm_num) hx)
      (fun x hx => Nat.digits_lt_base (by norm_num) hx) h2
    have hm2 := Nat.ofDigits_digits 10 m
    have hn2 := Nat.ofDigits_digits 10 n
    rw [h3] at hm2
    rw [hn2] at hm2
    exact hm2.symm

/-! ### Path and string helper lemmas -/

theorem splitExt_append (name : String) :
    (splitExt name).1 ++ (splitExt name).2 = name := by
  unfold splitExt
  cases h : lastDotPos name.data with
  | none =>
    apply String.ext
    rw [String.data_append]
    simp
  | some i =>
    by_cases hcond : 0 < i ∧ i + 1 < name.data.length
    · simp only [hcond, if_true]
      apply String.ext
      rw [String.data_append]
      exact List.take_append_drop i name.data
    · simp only [hcond, if_false]
      apply String.ext
      rw [String.data_append]
      simp

theorem destCand_inj (folder : PyPath) (folder_name fname stem suffix : String)
    (hsplit : fname = stem ++ suffix) :
    Function.Injective (destCand folder folder_name fname stem suffix) := by
  intro a b hab
  have hlast : ∀ (x y : String), folder ++ [x] = folder ++ [y] → x = y := by
    intro x y hxy
    have := List.append_cancel_left hxy
    simpa using this
  cases a with
  | zero =>
    cases b with
    | zero => rfl
    | succ k =>
      exfalso
      have hs := hlast _ _ hab
      have := congrArg String.data hs
      subst hsplit
      simp only [String.data_append] at this
      have hlen := congrArg List.length this
      simp [List.length_append] at hlen
      omega
  | succ j =>
    cases b with
    | zero =>
      exfalso
      have hs := hlast _ _ hab
      have := congrArg String.data hs
      subst hsplit
      simp only [String.data_append] at this
      have hlen := congrArg List.length this
      simp [List.length_append] at hlen
      omega
    | succ k =>
      have hs := hlast _ _ hab
      have hdata := congrArg String.data hs
      simp only [String.data_append, List.append_assoc] at hdata
      have h1 := List.append_cancel_left hdata
      have h2 := List.append_cancel_left h1
      have h3 := List.append_cancel_left h2
      have h4 := List.append_cancel_left h3
      have h5 := List.append_cancel_right h4
      have := natRepr_data_inj _ _ h5
      omega

theorem exists_cand_free (existing : List PyPath) (cand : Nat → PyPath)
    (hinj : Function.Injective cand) :
    ∃ j, j ≤ existing.length ∧ cand j ∉ existing := by
  by_contra hcon
  push_neg at hcon
  have hsub : (Finset.range (existing.length + 1)).image cand ⊆ existing.toFinset := by
    intro p hp
    rw [Finset.mem_image] at hp
    obtain ⟨a, ha, rfl⟩ := hp
    rw [Finset.mem_range] at ha
    rw [List.mem_toFinset]
    exact hcon a (by omega)
  have h1 : ((Finset.range (existing.length + 1)).image cand).card = existing.length + 1 := by
    rw [Finset.card_image_of_injOn hinj.injOn]
    simp
  have h2 := Finset.card_le_card hsub
  have h3 := List.toFinset_card_le existing
  omega

theorem findDestFrom_spec (existing : List PyPath) (cand : Nat → PyPath) :
    ∀ (fuel i : Nat), (∃ j, i ≤ j ∧ j ≤ i + fuel ∧ cand j ∉ existing) →
    ∃ j, i ≤ j ∧ findDestFrom existing cand i fuel = cand j ∧ cand j ∉ existing ∧
      ∀ i2, i ≤ i2 → i2 < j → cand i2 ∈ existing := by
  intro fuel
  induction fuel with
  | zero =>
    intro i h
    obtain ⟨j, hij, hj, hfree⟩ := h
    have hji : j = i := by omega
    rw [hji] at hfree
    exact ⟨i, le_refl i, rfl, hfree, fun i2 h1 h2 => absurd h2 (by omega)⟩
  | succ fuel ih =>
    intro i h
    by_cases hmem : cand i ∈ existing
    · obtain ⟨j, hij, hj, hfree⟩ := h
      have hji : j ≠ i := by
        intro he
        rw [he] at hfree
        exact hfree hmem
      obtain ⟨j2, hij2, heq, hfree2, hleast⟩ :=
        ih (i + 1) ⟨j, by omega, by omega, hfree⟩
      refine ⟨j2, by omega, ?_, hfree2, ?_⟩
      · rw [findDestFrom, if_pos hmem]
        exact heq
      · intro i2 h1 h2
        by_cases hi2 : i2 = i
        · rw [hi2]; exact hmem
        · exact hleast i2 (by omega) h2
    · refine ⟨i, le_refl i, ?_, hmem, by omega⟩
      rw [findDestFrom, if_neg hmem]

theorem findDest_spec (existing : List PyPath) (folder : PyPath)
    (folder_name stem suffix fname : String) (hsplit : fname = stem ++ suffix) :
    ∃ j, findDest existing folder folder_name fname stem suffix =
        destCand folder folder_name fname stem suffix j ∧
      destCand folder folder_name fname stem suffix j ∉ existing ∧
      ∀ i2, i2 < j → destCand folder folder_name fname stem suffix i2 ∈ existing := by
  obtain ⟨j, hj, hfree⟩ :=
    exists_cand_free existing _ (destCand_inj folder folder_name fname stem suffix hsplit)
  obtain ⟨j2, _, heq, hfree2, hleast⟩ :=
    findDestFrom_spec existing (destCand folder folder_name fname stem suffix)
      (existing.length + 1) 0 ⟨j, by omega, by omega, hfree⟩
  exact ⟨j2, heq, hfree2, fun i2 h2 => hleast i2 (by omega) h2⟩

theorem findDest_not_mem (existing : List PyPath) (folder : PyPath)
    (folder_name stem suffix fname : String) (hsplit : fname = stem ++ suffix) :
    findDest existing folder folder_name fname stem suffix ∉ existing := by
  obtain ⟨j, heq, hfree, _⟩ :=
    findDest_spec existing folder folder_name stem suffix fname hsplit
  rw [heq]
  exact hfree

/-- C2: in the `group` placement, the candidate destination name is
`{DestinationFolder.name}_{originalFileName}` and is used as-is when free; a
taken name gets the lowest numeric suffix `_1`, `_2`, ... making the path new;
the chosen path never coincides with an existing one, and placing a second
file with the same folder and filename, once the first placement exists,
yields a distinct path. -/
theorem group_placement_no_overwrite (existing : List PyPath) (folder : PyPath)
    (folder_name stem suffix fname : String) (hsplit : fname = stem ++ suffix) :
    findDest existing folder folder_name fname stem suffix ∉ existing ∧
    (∃ j, findDest existing folder folder_name fname stem suffix =
        destCand folder folder_name fname stem suffix j ∧
      ∀ i2, i2 < j → destCand folder folder_name fname stem suffix i2 ∈ existing) ∧
    (destCand folder folder_name fname stem suffix 0 ∉ existing →
      findDest existing folder folder_name fname stem suffix =
        destCand folder folder_name fname stem suffix 0) ∧
    findDest (findDest existing folder folder_name fname stem suffix :: existing)
        folder folder_name fname stem suffix ≠
      findDest existing folder folder_name fname stem suffix := by
  obtain ⟨j, heq, hfree, hleast⟩ :=
    findDest_spec existing folder folder_name stem suffix fname hsplit
  refine ⟨by rw [heq]; exact hfree, ⟨j, heq, hleast⟩, ?_, ?_⟩
  · intro h0
    rcases Nat.eq_zero_or_pos j with hj0 | hj0
    · rw [heq, hj0]
    · exact absurd (hleast 0 hj0) h0
  · intro hcontra
    have h2 := findDest_not_mem
      (findDest existing folder folder_name fname stem suffix :: existing)
      folder folder_name stem suffix fname hsplit
    rw [hcontra] at h2
    exact h2 (by simp)

/-- Witness for C2 at a concrete input: one existing collision forces the
`_1` suffix, and a repeated placement lands elsewhere. -/
theorem group_placement_no_overwrite_witness :
    ("a.jpg" = "a" ++ ".jpg") ∧
    (findDest [["d", "F_a.jpg"]] ["d"] "F" "a.jpg" "a" ".jpg" ∉ [["d", "F_a.jpg"]] ∧
    (∃ j, findDest [["d", "F_a.jpg"]] ["d"] "F" "a.jpg" "a" ".jpg" =
        destCand ["d"] "F" "a.jpg" "a" ".jpg" j ∧
      ∀ i2, i2 < j → destCand ["d"] "F" "a.jpg" "a" ".jpg" i2 ∈ [["d", "F_a.jpg"]]) ∧
    (destCand ["d"] "F" "a.jpg" "a" ".jpg" 0 ∉ [["d", "F_a.jpg"]] →
      findDest [["d", "F_a.jpg"]] ["d"] "F" "a.jpg" "a" ".jpg" =
        destCand ["d"] "F" "a.jpg" "a" ".jpg" 0) ∧
    findDest (findDest [["d", "F_a.jpg"]] ["d"] "F" "a.jpg" "a" ".jpg" :: [["d", "F_a.jpg"]])
        ["d"] "F" "a.jpg" "a" ".jpg" ≠
      findDest [["d", "F_a.jpg"]] ["d"] "F" "a.jpg" "a" ".jpg") :=
  ⟨by decide, group_placement_no_overwrite [["d", "F_a.jpg"]] ["d"] "F" "a" ".jpg" "a.jpg" (by decide)⟩

/-! ### Extractor cascades as first-success folds -/

theorem exifLoop_eq_findSome (parse : String → Option PyDateTime)
    (tags : List (String × String)) :
    ∀ l, exifLoop parse tags l = l.findSome? (exifFieldOutcome parse tags) := by
  intro l
  induction l with
  | nil => rfl
  | cons f rest ih =>
    cases hlk : lookupStr tags f with
    | none => simp [exifLoop, List.findSome?_cons, exifFieldOutcome, hlk, ih]
    | some v =>
      by_cases hcond : v ≠ "" ∧ pyStrip v ≠ ""
      · cases hp : parse (replaceColons2 v) with
        | none => simp [exifLoop, List.findSome?_cons, exifFieldOutcome, hlk, hcond, hp, ih]
        | some d => simp [exifLoop, List.findSome?_cons, exifFieldOutcome, hlk, hcond, hp]
      · simp [exifLoop, List.findSome?_cons, exifFieldOutcome, hlk, hcond, ih]

theorem videoFieldLoop_eq_findSome (parse : String → Option PyDateTime) (t : Track) :
    ∀ l, videoFieldLoop parse t l = l.findSome? (videoFieldOutcome parse t) := by
  intro l
  induction l with
  | nil => rfl
  | cons f rest ih =>
    cases hlk : lookupVV t.fields f with
    | none => simp [videoFieldLoop, List.findSome?_cons, videoFieldOutcome, hlk, ih]
    | some v =>
      cases hv : videoValExtract v with
      | none => simp [videoFieldLoop, List.findSome?_cons, videoFieldOutcome, hlk, hv, ih]
      | some s =>
        cases hp : parse s with
        | none => simp [videoFieldLoop, List.findSome?_cons, videoFieldOutcome, hlk, hv, hp, ih]
        | some d => simp [videoFieldLoop, List.findSome?_cons, videoFieldOutcome, hlk, hv, hp]

theorem videoTrackLoop_eq (parse : String → Option PyDateTime) :
    ∀ tracks, videoTrackLoop parse tracks =
      tracks.findSome? (fun t => if t.track_type = "General"
        then videoFieldLoop parse t videoDateFields else none) := by
  intro tracks
  induction tracks with
  | nil => rfl
  | cons t ts ih =>
    by_cases hg : t.track_type = "General"
    · cases hf : videoFieldLoop parse t videoDateFields with
      | none => simp [videoTrackLoop, List.findSome?_cons, hg, hf, ih]
      | some d => simp [videoTrackLoop, List.findSome?_cons, hg, hf]
    · simp [videoTrackLoop, List.findSome?_cons, hg, ih]

/-- C5: `get_exif_date` tries exactly `DateTimeOriginal`, `DateTimeDigitized`,
`DateTime` in that order, returning the first field that is present, with a
non-empty and non-blank stringified value, and whose colon-adjusted value
parses; in particular a parseable `DateTimeOriginal` wins no matter what the
other fields hold, and a failed EXIF read yields no date. -/
theorem exif_priority_order :
    (exifDateFields = ["DateTimeOriginal", "DateTimeDigitized", "DateTime"]) ∧
    (∀ parse, get_exif_date parse none = none) ∧
    (∀ parse tags, tags ≠ [] →
      get_exif_date parse (some tags) =
        exifDateFields.findSome? (exifFieldOutcome parse tags)) ∧
    (∀ parse tags d, tags ≠ [] →
      exifFieldOutcome parse tags "DateTimeOriginal" = some d →
      get_exif_date parse (some tags) = some d) := by
  refine ⟨rfl, fun parse => rfl, ?_, ?_⟩
  · intro parse tags ht
    simp [get_exif_date, ht, exifLoop_eq_findSome]
  · intro parse tags d ht hf
    simp [get_exif_date, ht, exifLoop_eq_findSome, exifDateFields, List.findSome?_cons, hf]

/-- Witness for C5: with both an original-capture and a digitization tag
present and parseable, the original-capture value is returned. -/
theorem exif_priority_order_witness :
    (([("DateTimeOriginal", "o"), ("DateTimeDigitized", "g")] : List (String × String)) ≠ []) ∧
    exifFieldOutcome
      (fun s => if s = "o" then some ⟨2023, 5, 1, 0, 0, 0, 0⟩
        else if s = "g" then some ⟨2024, 1, 1, 0, 0, 0, 0⟩ else none)
      [("DateTimeOriginal", "o"), ("DateTimeDigitized", "g")]
      "DateTimeOriginal" = some ⟨2023, 5, 1, 0, 0, 0, 0⟩ ∧
    get_exif_date
      (fun s => if s = "o" then some ⟨2023, 5, 1, 0, 0, 0, 0⟩
        else if s = "g" then some ⟨2024, 1, 1, 0, 0, 0, 0⟩ else none)
      (some [("DateTimeOriginal", "o"), ("DateTimeDigitized", "g")]) =
      some ⟨2023, 5, 1, 0, 0, 0, 0⟩ :=
  ⟨by decide, by decide,
    exif_priority_order.2.2.2
      (fun s => if s = "o" then some ⟨2023, 5, 1, 0, 0, 0, 0⟩
        else if s = "g" then some ⟨2024, 1, 1, 0, 0, 0, 0⟩ else none)
      [("DateTimeOriginal", "o"), ("DateTimeDigitized", "g")]
      ⟨2023, 5, 1, 0, 0, 0, 0⟩ (by decide) (by decide)⟩

/-- C4 (amended): the video cascade tries the general-track fields in the
source's fixed order — encoded date, tagged date, modification date (UTC),
creation date (UTC), modification date (local), creation date (local), then
the two `other_` variants — taking a list value's first element and stopping
at the first successful parse; a parseable encoded date always wins. -/
theorem video_field_order :
    (videoDateFields =
      ["encoded_date", "tagged_date", "file_last_modification_date",
       "file_creation_date", "file_last_modification_date__local",
       "file_creation_date__local", "other_file_creation_date",
       "other_file_last_modification_date"]) ∧
    (∀ parse t l, videoFieldLoop parse t l = l.findSome? (videoFieldOutcome parse t)) ∧
    (∀ parse tracks, videoTrackLoop parse tracks =
      tracks.findSome? (fun t => if t.track_type = "General"
        then videoFieldLoop parse t videoDateFields else none)) ∧
    (∀ parse t d, t.track_type = "General" →
      videoFieldOutcome parse t "encoded_date" = some d →
      videoTrackLoop parse [t] = some d) := by
  refine ⟨rfl, fun parse t l => videoFieldLoop_eq_findSome parse t l, videoTrackLoop_eq, ?_⟩
  intro parse t d hg hf
  simp [videoTrackLoop, hg, videoFieldLoop_eq_findSome, videoDateFields,
    List.findSome?_cons, hf]

/-- Witness for C4: with both an encoded date and a file-creation date
present, the encoded date is chosen. -/
theorem video_field_order_witness :
    (Track.track_type ⟨"General", [("encoded_date", .str "E"), ("file_creation_date", .str "C")]⟩ = "General") ∧
    videoFieldOutcome
      (fun s => if s = "E" then some ⟨2020, 1, 1, 0, 0, 0, 0⟩
        else if s = "C" then some ⟨2021, 2, 2, 0, 0, 0, 0⟩ else none)
      ⟨"General", [("encoded_date", .str "E"), ("file_creation_date", .str "C")]⟩
      "encoded_date" = some ⟨2020, 1, 1, 0, 0, 0, 0⟩ ∧
    videoTrackLoop
      (fun s => if s = "E" then some ⟨2020, 1, 1, 0, 0, 0, 0⟩
        else if s = "C" then some ⟨2021, 2, 2, 0, 0, 0, 0⟩ else none)
      [⟨"General", [("encoded_date", .str "E"), ("file_creation_date", .str "C")]⟩] =
      some ⟨2020, 1, 1, 0, 0, 0, 0⟩ :=
  ⟨by decide, by decide,
    video_field_order.2.2.2
      (fun s => if s = "E" then some ⟨2020, 1, 1, 0, 0, 0, 0⟩
        else if s = "C" then some ⟨2021, 2, 2, 0, 0, 0, 0⟩ else none)
      ⟨"General", [("encoded_date", .str "E"), ("file_creation_date", .str "C")]⟩
      ⟨2020, 1, 1, 0, 0, 0, 0⟩ (by decide) (by decide)⟩

/-- C4 counterexample: the claim's order (modification-local before
creation-UTC) disagrees with the source's order on a track carrying both a
local modification date and a UTC creation date: the code returns the
creation date while the claimed order would return the modification date. -/
theorem video_field_order_counterexample :
    videoTrackLoop
      (fun s => if s = "A" then some ⟨2020, 1, 1, 0, 0, 0, 0⟩
        else if s = "B" then some ⟨2021, 2, 2, 0, 0, 0, 0⟩ else none)
      [⟨"General", [("file_last_modification_date__local", .str "B"),
        ("file_creation_date", .str "A")]⟩] = some ⟨2020, 1, 1, 0, 0, 0, 0⟩ ∧
    specVideoTrackLoop
      (fun s => if s = "A" then some ⟨2020, 1, 1, 0, 0, 0, 0⟩
        else if s = "B" then some ⟨2021, 2, 2, 0, 0, 0, 0⟩ else none)
      [⟨"General", [("file_last_modification_date__local", .str "B"),
        ("file_creation_date", .str "A")]⟩] = some ⟨2021, 2, 2, 0, 0, 0, 0⟩ ∧
    (⟨2020, 1, 1, 0, 0, 0, 0⟩ : PyDateTime) ≠ ⟨2021, 2, 2, 0, 0, 0, 0⟩ := by
  exact ⟨by decide, by decide, by decide⟩

/-- C3 (amended): the Date Resolver is a total function returning exactly one
date, and when every extraction attempt fails it falls back to the filesystem
creation timestamp and then to the current time — except that a failure to
open a still-image file (an exception not caught by any inner handler) falls
directly to the current time, bypassing the creation timestamp. -/
theorem date_resolver_total_fallback (parse : String → Option PyDateTime)
    (inp : MediaInput)
    (h1 : rawAttempt parse inp = none)
    (h2 : ∀ exifData, inp.imgOpen = some exifData → get_exif_date parse exifData = none)
    (h3 : ∀ tracks, inp.videoParse = some tracks → videoTrackLoop parse tracks = none) :
    get_image_date parse inp =
      if pyLower inp.ext ∈ jpegExtensions ∧ inp.imgOpen = none then inp.now
      else fallbackDate inp := by
  by_cases hraw : pyLower inp.ext ∈ rawExtensions
  · have hnj : pyLower inp.ext ∉ jpegExtensions := by
      simp only [rawExtensions, List.mem_cons, List.not_mem_nil, or_false] at hraw
      rcases hraw with h | h | h | h | h | h <;> rw [h] <;> decide
    rw [if_neg (fun hc => hnj hc.1)]
    simp [get_image_date, hraw, h1]
  · by_cases hjpg : pyLower inp.ext ∈ jpegExtensions
    · cases hio : inp.imgOpen with
      | none =>
        rw [if_pos ⟨hjpg, rfl⟩]
        simp [get_image_date, hraw, hjpg, hio]
      | some exifData =>
        rw [if_neg (fun hc => Option.noConfusion hc.2)]
        simp [get_image_date, hraw, hjpg, hio, h2 exifData hio]
    · rw [if_neg (fun hc => hjpg hc.1)]
      by_cases hvid : pyLower inp.ext ∈ videoExtensions
      · cases hvp : inp.videoParse with
        | none => simp [get_image_date, hraw, hjpg, hvid, hvp]
        | some tracks => simp [get_image_date, hraw, hjpg, hvid, hvp, h3 tracks hvp]
      · simp [get_image_date, hraw, hjpg, hvid]

/-- Witness for C3 at a concrete video file on which every extraction stage
fails: the result is the filesystem creation timestamp. -/
theorem date_resolver_total_fallback_witness :
    rawAttempt (fun _ => none)
      ⟨".mp4", none, none, some [], some ⟨2023, 5, 1, 0, 0, 0, 0⟩, ⟨2024, 1, 2, 3, 4, 5, 6⟩⟩ = none ∧
    get_image_date (fun _ => none)
      ⟨".mp4", none, none, some [], some ⟨2023, 5, 1, 0, 0, 0, 0⟩, ⟨2024, 1, 2, 3, 4, 5, 6⟩⟩ =
      fallbackDate
        ⟨".mp4", none, none, some [], some ⟨2023, 5, 1, 0, 0, 0, 0⟩, ⟨2024, 1, 2, 3, 4, 5, 6⟩⟩ :=
  ⟨rfl, by
    have h := date_resolver_total_fallback (fun _ => none)
      ⟨".mp4", none, none, some [], some ⟨2023, 5, 1, 0, 0, 0, 0⟩, ⟨2024, 1, 2, 3, 4, 5, 6⟩⟩
      rfl (fun e he => Option.noConfusion he)
      (fun tracks ht => by
        have h0 : tracks = [] := (Option.some.injEq _ _).mp ht.symm
        rw [h0]
        rfl)
    rw [h]
    decide⟩

/-- C3 counterexample: a still image whose container cannot be opened resolves
to the current wall-clock time even though a filesystem creation timestamp is
available, contradicting the claimed fall-through to the creation timestamp. -/
theorem date_resolver_counterexample :
    get_image_date (fun _ => none)
      ⟨".jpg", none, none, none, some ⟨2023, 5, 1, 0, 0, 0, 0⟩, ⟨2024, 1, 2, 3, 4, 5, 6⟩⟩ =
      ⟨2024, 1, 2, 3, 4, 5, 6⟩ ∧
    get_image_date (fun _ => none)
      ⟨".jpg", none, none, none, some ⟨2023, 5, 1, 0, 0, 0, 0⟩, ⟨2024, 1, 2, 3, 4, 5, 6⟩⟩ ≠
      ⟨2023, 5, 1, 0, 0, 0, 0⟩ := by
  exact ⟨by decide, by decide⟩

/-! ### Pre-flight checks (C6) -/

/-- C6: before any transfer both pre-flight checks must have passed; the space
check demands strictly more free space than the source size; a failing check
yields the corresponding typed error, leaves the filesystem untouched, and
writes nothing to the destination. -/
theorem preflight_checks (env : Env) (cfg : Config) (src dst : PyPath) (fs : FS)
    (hdry : cfg.dry_run = false) :
    ((has_enough_disk_space env src dst).1 = true ↔
      ∃ sz fr, env.size src = some sz ∧ env.free (parentDir dst) = some fr ∧ fr > sz) ∧
    ((has_enough_disk_space env src dst).1 = false →
      safe_copy_file env cfg src dst fs =
        ⟨fs, (has_enough_disk_space env src dst).2 ++ [.processErrorLog src],
          some .diskSpace⟩) ∧
    ((has_enough_disk_space env src dst).1 = true →
      env.touchable (parentDir dst) = false →
      safe_copy_file env cfg src dst fs =
        ⟨fs, (has_enough_disk_space env src dst).2 ++
            [.probe (parentDir dst), .processErrorLog src],
          some .permission⟩) ∧
    ((safe_copy_file env cfg src dst fs).err = none →
      (has_enough_disk_space env src dst).1 = true ∧
      env.touchable (parentDir dst) = true) := by
  refine ⟨?_, ?_, ?_, ?_⟩
  · constructor
    · intro h
      unfold has_enough_disk_space at h
      cases hs : env.size src with
      | none => rw [hs] at h; simp at h
      | some sz =>
        cases hf : env.free (parentDir dst) with
        | none => rw [hs, hf] at h; simp at h
        | some fr =>
          rw [hs, hf] at h
          simp at h
          exact ⟨sz, fr, rfl, rfl, h⟩
    · rintro ⟨sz, fr, hs, hf, hlt⟩
      unfold has_enough_disk_space
      rw [hs, hf]
      simpa using hlt
  · intro h
    simp [safe_copy_file, hdry, h]
  · intro h1 hw
    simp [safe_copy_file, hdry, h1, can_write_to_directory, hw]
  · intro h
    by_cases hsp : (has_enough_disk_space env src dst).1 = true
    · refine ⟨hsp, ?_⟩
      by_cases htc : env.touchable (parentDir dst) = true
      · exact htc
      · exfalso
        have hw : env.touchable (parentDir dst) = false := by
          cases hx : env.touchable (parentDir dst)
          · rfl
          · exact absurd hx htc
        simp [safe_copy_file, hdry, hsp, can_write_to_directory, hw] at h
    · exfalso
      have hsp2 : (has_enough_disk_space env src dst).1 = false := by
        cases hx : (has_enough_disk_space env src dst).1
        · rfl
        · exact absurd hx hsp
      simp [safe_copy_file, hdry, hsp2] at h

/-- Witness for C6 at a concrete input: with a writability failure the
transfer is refused by a typed permission error and the filesystem is
unchanged. -/
theorem preflight_checks_witness :
    ((groupConfig false).dry_run = false) ∧
    ((has_enough_disk_space envNoWrite ["src", "a.jpg"] ["out", "f", "x.jpg"]).1 = true) ∧
    safe_copy_file envNoWrite (groupConfig false) ["src", "a.jpg"] ["out", "f", "x.jpg"] fsOut =
      ⟨fsOut, (has_enough_disk_space envNoWrite ["src", "a.jpg"] ["out", "f", "x.jpg"]).2 ++
          [.probe (parentDir ["out", "f", "x.jpg"]), .processErrorLog ["src", "a.jpg"]],
        some .permission⟩ :=
  ⟨rfl, by decide,
    (preflight_checks envNoWrite (groupConfig false) ["src", "a.jpg"]
      ["out", "f", "x.jpg"] fsOut rfl).2.2.1 (by decide) (by decide)⟩

/-! ### Group-run unfolding helpers -/

theorem group_run_nil (env : Env) (cfg : Config) (dest : PyPath)
    (mapping : String → Option JsonVal) (fs : FS) :
    group_run env cfg dest mapping fs [] = ⟨fs, [.echoCompleted], none, true⟩ := rfl

theorem group_run_cons_err (env : Env) (cfg : Config) (dest : PyPath)
    (mapping : String → Option JsonVal) (fs : FS) (x : PyPath × PyDateTime)
    (rest : List (PyPath × PyDateTime)) (e : PlaceError)
    (h : (group_step env cfg dest mapping fs x).err = some e) :
    group_run env cfg dest mapping fs (x :: rest) =
      ⟨(group_step env cfg dest mapping fs x).fs,
       (group_step env cfg dest mapping fs x).events, some e, false⟩ := by
  simp only [group_run]
  rw [h]

theorem group_run_cons_ok (env : Env) (cfg : Config) (dest : PyPath)
    (mapping : String → Option JsonVal) (fs : FS) (x : PyPath × PyDateTime)
    (rest : List (PyPath × PyDateTime))
    (h : (group_step env cfg dest mapping fs x).err = none) :
    group_run env cfg dest mapping fs (x :: rest) =
      ⟨(group_run env cfg dest mapping (group_step env cfg dest mapping fs x).fs rest).fs,
       (group_step env cfg dest mapping fs x).events ++
         (group_run env cfg dest mapping (group_step env cfg dest mapping fs x).fs rest).events,
       (group_run env cfg dest mapping (group_step env cfg dest mapping fs x).fs rest).err,
       (group_run env cfg dest mapping (group_step env cfg dest mapping fs x).fs rest).completed⟩ := by
  simp only [group_run]
  rw [h]

/-- A skipped file (no usable mapping entry) leaves the state untouched and
produces no event and no error. -/
theorem group_step_skip (env : Env) (cfg : Config) (dest : PyPath)
    (mapping : String → Option JsonVal) (fs : FS) (x : PyPath × PyDateTime)
    (hm : truthyLabel (mapping (strftimeYMD (truncateDay x.2))) = none) :
    group_step env cfg dest mapping fs x = ⟨fs, [], none⟩ := by
  simp [group_step, hm]

/-! ### Dry-run purity (C7) -/

theorem group_step_dry (env : Env) (cfg : Config) (dest : PyPath)
    (mapping : String → Option JsonVal) (fs : FS) (x : PyPath × PyDateTime)
    (hdry : cfg.dry_run = true) :
    (group_step env cfg dest mapping fs x).fs = fs ∧
    (group_step env cfg dest mapping fs x).err = none ∧
    ∀ ev ∈ (group_step env cfg dest mapping fs x).events, ev.touchesFS = false := by
  cases hm : truthyLabel (mapping (strftimeYMD (truncateDay x.2))) with
  | none => simp [group_step, hm]
  | some pn =>
    simp [group_step, hm, create_date_folder, hdry, safe_copy_file, Event.touchesFS]

theorem group_run_dry (env : Env) (cfg : Config) (dest : PyPath)
    (mapping : String → Option JsonVal) (fs : FS)
    (items : List (PyPath × PyDateTime)) (hdry : cfg.dry_run = true) :
    (group_run env cfg dest mapping fs items).fs = fs ∧
    (group_run env cfg dest mapping fs items).err = none ∧
    (group_run env cfg dest mapping fs items).completed = true ∧
    ∀ ev ∈ (group_run env cfg dest mapping fs items).events, ev.touchesFS = false := by
  induction items with
  | nil => simp [group_run_nil, Event.touchesFS]
  | cons x rest ih =>
    obtain ⟨h1, h2, h3⟩ := group_step_dry env cfg dest mapping fs x hdry
    rw [group_run_cons_ok env cfg dest mapping fs x rest h2, h1]
    refine ⟨ih.1, ih.2.1, ih.2.2.1, ?_⟩
    intro ev hev
    simp only [List.mem_append] at hev
    rcases hev with hev | hev
    · exact h3 ev hev
    · exact ih.2.2.2 ev hev

/-- C7: with dry-run enabled no filesystem change happens anywhere — the copy
routine and the folder-creation routine return the state unchanged, and a
whole group-style run leaves the filesystem intact, emits only log and console
events (no probe, no transfer), and still completes. -/
theorem dry_run_no_mutation (env : Env) (cfg : Config) (dest : PyPath)
    (mapping : String → Option JsonVal) (fs : FS)
    (items : List (PyPath × PyDateTime)) (src dst base : PyPath)
    (date : PyDateTime) (pn : String)
    (hdry : cfg.dry_run = true) :
    safe_copy_file env cfg src dst fs = ⟨fs, [.wouldTransfer cfg.move_files src dst], none⟩ ∧
    create_date_folder cfg base date pn fs =
      .ok (fs, base ++ [strftimeYMD date ++ "_" ++ pn],
        [.createdFolderLog (base ++ [strftimeYMD date ++ "_" ++ pn])]) ∧
    (group_run env cfg dest mapping fs items).fs = fs ∧
    (group_run env cfg dest mapping fs items).completed = true ∧
    ∀ ev ∈ (group_run env cfg dest mapping fs items).events, ev.touchesFS = false := by
  obtain ⟨h1, h2, h3, h4⟩ := group_run_dry env cfg dest mapping fs items hdry
  refine ⟨by simp [safe_copy_file, hdry], by simp [create_date_folder, hdry], h1, h3, h4⟩

/-- Witness for C7: a dry-run group-style run over one mapped file changes
nothing and logs only. -/
theorem dry_run_no_mutation_witness :
    ((⟨Config.default.image_extensions, 50, true, false, none, none, none⟩ : Config).dry_run = true) ∧
    (group_run envAllOk ⟨Config.default.image_extensions, 50, true, false, none, none, none⟩
        ["out"] mapW fsOut [(["src", "a.jpg"], dMay1)]).fs = fsOut ∧
    (group_run envAllOk ⟨Config.default.image_extensions, 50, true, false, none, none, none⟩
        ["out"] mapW fsOut [(["src", "a.jpg"], dMay1)]).completed = true ∧
    ∀ ev ∈ (group_run envAllOk ⟨Config.default.image_extensions, 50, true, false, none, none, none⟩
        ["out"] mapW fsOut [(["src", "a.jpg"], dMay1)]).events, ev.touchesFS = false := by
  have h := dry_run_no_mutation envAllOk
    ⟨Config.default.image_extensions, 50, true, false, none, none, none⟩
    ["out"] mapW fsOut [(["src", "a.jpg"], dMay1)] [] [] [] dMay1 "W" rfl
  exact ⟨rfl, h.2.2.1, h.2.2.2.1, h.2.2.2.2⟩

/-! ### Failure propagation (C1) -/

theorem safe_copy_err_logs (env : Env) (cfg : Config) (src dst : PyPath) (fs : FS)
    (e : PlaceError) (h : (safe_copy_file env cfg src dst fs).err = some e) :
    .processErrorLog src ∈ (safe_copy_file env cfg src dst fs).events := by
  by_cases hdry : cfg.dry_run = true
  · simp [safe_copy_file, hdry] at h
  · have hdry2 : cfg.dry_run = false := by
      cases hx : cfg.dry_run
      · rfl
      · exact absurd hx hdry
    cases hsp : (has_enough_disk_space env src dst).1 with
    | false => simp [safe_copy_file, hdry2, hsp]
    | true =>
      cases htc : env.touchable (parentDir dst) with
      | false => simp [safe_copy_file, hdry2, hsp, can_write_to_directory, htc]
      | true =>
        by_cases hmv : cfg.move_files = true
        · simp [safe_copy_file, hdry2, hsp, can_write_to_directory, htc, hmv] at h
        · have hmv2 : cfg.move_files = false := by
            cases hx : cfg.move_files
            · rfl
            · exact absurd hx hmv
          simp [safe_copy_file, hdry2, hsp, can_write_to_directory, htc, hmv2] at h

theorem group_step_err_logs (env : Env) (cfg : Config) (dest : PyPath)
    (mapping : String → Option JsonVal) (fs : FS) (x : PyPath × PyDateTime)
    (e : PlaceError) (h : (group_step env cfg dest mapping fs x).err = some e)
    (he : e = .diskSpace ∨ e = .permission) :
    .processErrorLog x.1 ∈ (group_step env cfg dest mapping fs x).events := by
  cases hm : truthyLabel (mapping (strftimeYMD (truncateDay x.2))) with
  | none =>
    rw [group_step_skip env cfg dest mapping fs x hm] at h
    simp at h
  | some pn =>
    cases hcf : create_date_folder cfg dest x.2 pn fs with
    | error ev =>
      have hstep : group_step env cfg dest mapping fs x = ⟨fs, ev, some .mkdirFailed⟩ := by
        simp [group_step, hm, hcf]
      rw [hstep] at h
      simp only [Option.some.injEq] at h
      rcases he with he | he <;> rw [← h] at he <;> cases he
    | ok res =>
      obtain ⟨fs1, df, ev1⟩ := res
      have hstep : group_step env cfg dest mapping fs x =
          ⟨(safe_copy_file env cfg x.1
              (findDest (fs1.files ++ fs1.dirs) df
                (strftimeYMD x.2 ++ "_" ++ pn) (pathName x.1)
                (splitExt (pathName x.1)).1 (splitExt (pathName x.1)).2) fs1).fs,
           ev1 ++ (safe_copy_file env cfg x.1
              (findDest (fs1.files ++ fs1.dirs) df
                (strftimeYMD x.2 ++ "_" ++ pn) (pathName x.1)
                (splitExt (pathName x.1)).1 (splitExt (pathName x.1)).2) fs1).events,
           (safe_copy_file env cfg x.1
              (findDest (fs1.files ++ fs1.dirs) df
                (strftimeYMD x.2 ++ "_" ++ pn) (pathName x.1)
                (splitExt (pathName x.1)).1 (splitExt (pathName x.1)).2) fs1).err⟩ := by
        simp [group_step, hm, hcf]
      rw [hstep] at h ⊢
      simp only [List.mem_append]
      exact Or.inr (safe_copy_err_logs env cfg x.1 _ fs1 e h)

/-- C1 (amended): a per-file placement failure (insufficient space or
non-writable destination) is logged, but the raised error then propagates out
of the loop: the run aborts at that file, no remaining file is processed, and
the completion message is not emitted. -/
theorem placement_failure_aborts_run (env : Env) (mv : Bool) (dest : PyPath)
    (mapping : String → Option JsonVal) (fs : FS) (x : PyPath × PyDateTime)
    (rest : List (PyPath × PyDateTime)) (e : PlaceError)
    (h : (group_step env (groupConfig mv) dest mapping fs x).err = some e) :
    group_run env (groupConfig mv) dest mapping fs (x :: rest) =
      ⟨(group_step env (groupConfig mv) dest mapping fs x).fs,
       (group_step env (groupConfig mv) dest mapping fs x).events, some e, false⟩ ∧
    ((e = .diskSpace ∨ e = .permission) →
      .processErrorLog x.1 ∈ (group_step env (groupConfig mv) dest mapping fs x).events) :=
  ⟨group_run_cons_err env (groupConfig mv) dest mapping fs x rest e h,
   fun he => group_step_err_logs env (groupConfig mv) dest mapping fs x e h he⟩

/-- Witness for C1: a concrete run whose first file exhausts the disk aborts
with a logged disk-space error, regardless of the remaining file. -/
theorem placement_failure_aborts_run_witness :
    (group_step envTight (groupConfig false) ["out"] mapW fsOut
      (["src", "big.jpg"], dMay1)).err = some .diskSpace ∧
    group_run envTight (groupConfig false) ["out"] mapW fsOut
      [(["src", "big.jpg"], dMay1), (["src", "small.jpg"], dMay1)] =
      ⟨(group_step envTight (groupConfig false) ["out"] mapW fsOut
          (["src", "big.jpg"], dMay1)).fs,
       (group_step envTight (groupConfig false) ["out"] mapW fsOut
          (["src", "big.jpg"], dMay1)).events, some .diskSpace, false⟩ ∧
    .processErrorLog ["src", "big.jpg"] ∈
      (group_step envTight (groupConfig false) ["out"] mapW fsOut
        (["src", "big.jpg"], dMay1)).events := by
  have h := placement_failure_aborts_run envTight false ["out"] mapW fsOut
    (["src", "big.jpg"], dMay1) [(["src", "small.jpg"], dMay1)] .diskSpace (by decide)
  exact ⟨by decide, h.1, h.2 (Or.inl rfl)⟩

/-- C1 counterexample: with two mapped files of which the first lacks disk
space, the run stops after the first file — no completion message, and the
second file (which alone would be placed fine) is never placed. -/
theorem placement_failure_aborts_run_counterexample :
    group_run envTight (groupConfig false) ["out"] mapW fsOut
      [(["src", "big.jpg"], dMay1), (["src", "small.jpg"], dMay1)] =
      ⟨⟨[], [["out", "20230501_W"], ["out"]]⟩,
       [.createdFolderLog ["out", "20230501_W"], .processErrorLog ["src", "big.jpg"]],
       some .diskSpace, false⟩ ∧
    (group_run envTight (groupConfig false) ["out"] mapW fsOut
      [(["src", "small.jpg"], dMay1)]).completed = true := by
  exact ⟨by decide, by decide⟩

/-! ### Mapped files placed, unmapped skipped (C8) -/

theorem has_enough_pair_true (env : Env) (s d : PyPath) :
    (has_enough_disk_space env s d).1 = true →
    has_enough_disk_space env s d = (true, []) := by
  unfold has_enough_disk_space
  cases env.size s with
  | none => intro h; simp at h
  | some sz =>
    cases env.free (parentDir d) with
    | none => intro h; simp at h
    | some fr => intro h; simp at h ⊢; exact h

theorem insertDir_mem (fs : FS) (d d2 : PyPath) (h : d2 ∈ fs.dirs) :
    d2 ∈ (insertDir fs d).dirs := by
  unfold insertDir
  by_cases hd : d ∈ fs.dirs <;> simp [hd, h]

theorem foldl_insertDir_mem : ∀ (l : List PyPath) (fs : FS) (d2 : PyPath),
    d2 ∈ fs.dirs → d2 ∈ (l.foldl insertDir fs).dirs := by
  intro l
  induction l with
  | nil => intro fs d2 h; exact h
  | cons a l ih => intro fs d2 h; exact ih _ _ (insertDir_mem fs a d2 h)

theorem mkdirParents_mem (fs : FS) (p d2 : PyPath) (h : d2 ∈ fs.dirs) :
    d2 ∈ (mkdirParents fs p).dirs :=
  foldl_insertDir_mem _ fs d2 h

theorem insertFile_dirs (fs : FS) (p : PyPath) : (insertFile fs p).dirs = fs.dirs := by
  unfold insertFile
  by_cases hp : p ∈ fs.files <;> simp [hp]

theorem safe_copy_dirs_mem (env : Env) (cfg : Config) (src dst : PyPath) (fs : FS)
    (d2 : PyPath) (h : d2 ∈ fs.dirs) :
    d2 ∈ (safe_copy_file env cfg src dst fs).fs.dirs := by
  by_cases hdry : cfg.dry_run = true
  · simpa [safe_copy_file, hdry] using h
  · have hdry2 : cfg.dry_run = false := by
      cases hx : cfg.dry_run
      · rfl
      · exact absurd hx hdry
    cases hsp : (has_enough_disk_space env src dst).1 with
    | false => simpa [safe_copy_file, hdry2, hsp] using h
    | true =>
      cases htc : env.touchable (parentDir dst) with
      | false => simpa [safe_copy_file, hdry2, hsp, can_write_to_directory, htc] using h
      | true =>
        have hmk := mkdirParents_mem fs (parentDir dst) d2 h
        by_cases hmv : cfg.move_files = true
        · simpa [safe_copy_file, hdry2, hsp, can_write_to_directory, htc, hmv,
            insertFile_dirs, removeFile] using hmk
        · have hmv2 : cfg.move_files = false := by
            cases hx : cfg.move_files
            · rfl
            · exact absurd hx hmv
          simpa [safe_copy_file, hdry2, hsp, can_write_to_directory, htc, hmv2,
            insertFile_dirs] using hmk

theorem group_step_dirs_mem (env : Env) (cfg : Config) (dest : PyPath)
    (mapping : String → Option JsonVal) (fs : FS) (x : PyPath × PyDateTime)
    (d2 : PyPath) (h : d2 ∈ fs.dirs) :
    d2 ∈ (group_step env cfg dest mapping fs x).fs.dirs := by
  cases hm : truthyLabel (mapping (strftimeYMD (truncateDay x.2))) with
  | none => simpa [group_step_skip env cfg dest mapping fs x hm] using h
  | some pn =>
    cases hcf : create_date_folder cfg dest x.2 pn fs with
    | error ev => simpa [group_step, hm, hcf] using h
    | ok res =>
      obtain ⟨fs1, df, ev1⟩ := res
      have hfs1 : d2 ∈ fs1.dirs := by
        unfold create_date_folder at hcf
        by_cases hdry : cfg.dry_run = true
        · rw [if_pos hdry] at hcf
          simp only [Except.ok.injEq, Prod.mk.injEq] at hcf
          rw [← hcf.1]
          exact h
        · have hdry2 : cfg.dry_run = false := by
            cases hx : cfg.dry_run
            · rfl
            · exact absurd hx hdry
          rw [hdry2] at hcf
          simp only [Bool.false_eq_true, if_false] at hcf
          by_cases hb : dest ∈ fs.dirs
          · rw [if_pos hb] at hcf
            simp only [Except.ok.injEq, Prod.mk.injEq] at hcf
            rw [← hcf.1]
            exact insertDir_mem fs _ d2 h
          · rw [if_neg hb] at hcf
            cases hcf
      have := safe_copy_dirs_mem env cfg x.1
        (findDest (fs1.files ++ fs1.dirs) df
          (strftimeYMD x.2 ++ "_" ++ pn) (pathName x.1)
          (splitExt (pathName x.1)).1 (splitExt (pathName x.1)).2) fs1 d2 hfs1
      simpa [group_step, hm, hcf] using this

theorem group_step_success (env : Env) (mv : Bool) (dest : PyPath)
    (mapping : String → Option JsonVal) (fs : FS) (x : PyPath × PyDateTime)
    (pn : String)
    (hm : truthyLabel (mapping (strftimeYMD (truncateDay x.2))) = some pn)
    (hdest : dest ∈ fs.dirs)
    (hdisk : ∀ s d, (has_enough_disk_space env s d).1 = true)
    (hwr : ∀ p, env.touchable p = true) :
    (group_step env (groupConfig mv) dest mapping fs x).err = none ∧
    ∃ dst, Event.transferred mv x.1 dst ∈
      (group_step env (groupConfig mv) dest mapping fs x).events := by
  have hdry : ∀ b, (groupConfig b).dry_run = false := fun b => rfl
  have hmov : ∀ b, (groupConfig b).move_files = b := fun b => rfl
  have hcf : create_date_folder (groupConfig mv) dest x.2 pn fs =
      .ok (insertDir fs (dest ++ [strftimeYMD x.2 ++ "_" ++ pn]),
        dest ++ [strftimeYMD x.2 ++ "_" ++ pn],
        [.createdFolderLog (dest ++ [strftimeYMD x.2 ++ "_" ++ pn])]) := by
    simp [create_date_folder, hdry, hdest]
  constructor
  · cases mv <;>
      simp [group_step, hm, hcf, safe_copy_file, hdry, hmov,
        hdisk, can_write_to_directory, hwr]
  · refine ⟨findDest
      ((insertDir fs (dest ++ [strftimeYMD x.2 ++ "_" ++ pn])).files ++
        (insertDir fs (dest ++ [strftimeYMD x.2 ++ "_" ++ pn])).dirs)
      (dest ++ [strftimeYMD x.2 ++ "_" ++ pn])
      (strftimeYMD x.2 ++ "_" ++ pn) (pathName x.1)
      (splitExt (pathName x.1)).1 (splitExt (pathName x.1)).2, ?_⟩
    cases mv <;>
      simp [group_step, hm, hcf, safe_copy_file, hdry, hmov,
        hdisk, can_write_to_directory, hwr, has_enough_pair_true]

/-- C8 (amended): provided the destination root exists and every pre-flight
check succeeds, a `group` run places every discovered file whose DateKey has a
usable mapping entry, silently skips (no event, no folder, no error) every
file whose DateKey has no usable entry, and emits the completion message.
Without those provisos a failing placement aborts the run before completion. -/
theorem group_mapped_placed_unmapped_skipped (env : Env) (mv : Bool) (dest : PyPath)
    (mapping : String → Option JsonVal) (fs : FS)
    (items : List (PyPath × PyDateTime))
    (hdest : dest ∈ fs.dirs)
    (hdisk : ∀ s d, (has_enough_disk_space env s d).1 = true)
    (hwr : ∀ p, env.touchable p = true) :
    (group_run env (groupConfig mv) dest mapping fs items).err = none ∧
    (group_run env (groupConfig mv) dest mapping fs items).completed = true ∧
    (∀ x ∈ items, truthyLabel (mapping (strftimeYMD (truncateDay x.2))) ≠ none →
      ∃ dst, Event.transferred mv x.1 dst ∈
        (group_run env (groupConfig mv) dest mapping fs items).events) ∧
    (∀ (fs2 : FS) (x : PyPath × PyDateTime),
      truthyLabel (mapping (strftimeYMD (truncateDay x.2))) = none →
      group_step env (groupConfig mv) dest mapping fs2 x = ⟨fs2, [], none⟩) := by
  have main : ∀ (its : List (PyPath × PyDateTime)) (fs0 : FS), dest ∈ fs0.dirs →
      (group_run env (groupConfig mv) dest mapping fs0 its).err = none ∧
      (group_run env (groupConfig mv) dest mapping fs0 its).completed = true ∧
      ∀ x ∈ its, truthyLabel (mapping (strftimeYMD (truncateDay x.2))) ≠ none →
        ∃ dst, Event.transferred mv x.1 dst ∈
          (group_run env (groupConfig mv) dest mapping fs0 its).events := by
    intro its
    induction its with
    | nil => intro fs0 hd; simp [group_run_nil]
    | cons x rest ih =>
      intro fs0 hd
      cases hm : truthyLabel (mapping (strftimeYMD (truncateDay x.2))) with
      | none =>
        have hstep := group_step_skip env (groupConfig mv) dest mapping fs0 x hm
        have herr : (group_step env (groupConfig mv) dest mapping fs0 x).err = none := by
          rw [hstep]
        rw [group_run_cons_ok env (groupConfig mv) dest mapping fs0 x rest herr]
        obtain ⟨ih1, ih2, ih3⟩ := ih (group_step env (groupConfig mv) dest mapping fs0 x).fs
          (by rw [hstep]; exact hd)
        refine ⟨ih1, ih2, ?_⟩
        intro y hy hty
        rcases List.mem_cons.mp hy with hyx | hy2
        · rw [hyx] at hty
          exact absurd hm hty
        · obtain ⟨dst, hdst⟩ := ih3 y hy2 hty
          exact ⟨dst, List.mem_append.mpr (Or.inr hdst)⟩
      | some pn =>
        obtain ⟨herr, dst0, hdst0⟩ :=
          group_step_success env mv dest mapping fs0 x pn hm hd hdisk hwr
        rw [group_run_cons_ok env (groupConfig mv) dest mapping fs0 x rest herr]
        obtain ⟨ih1, ih2, ih3⟩ := ih (group_step env (groupConfig mv) dest mapping fs0 x).fs
          (group_step_dirs_mem env (groupConfig mv) dest mapping fs0 x dest hd)
        refine ⟨ih1, ih2, ?_⟩
        intro y hy hty
        rcases List.mem_cons.mp hy with hyx | hy2
        · rw [hyx]
          exact ⟨dst0, List.mem_append.mpr (Or.inl hdst0)⟩
        · obtain ⟨dst, hdst⟩ := ih3 y hy2 hty
          exact ⟨dst, List.mem_append.mpr (Or.inr hdst)⟩
  obtain ⟨h1, h2, h3⟩ := main items fs hdest
  exact ⟨h1, h2, h3,
    fun fs2 x hm => group_step_skip env (groupConfig mv) dest mapping fs2 x hm⟩

/-- Witness for C8: a run over one mapped and one unmapped file completes, the
mapped file is transferred, and the unmapped file's step is a no-op. -/
theorem group_mapped_placed_unmapped_skipped_witness :
    (["out"] ∈ fsOut.dirs) ∧
    (group_run envAllOk (groupConfig false) ["out"] mapW fsOut
      [(["src", "a.jpg"], dMay1), (["src", "b.jpg"], dJun1)]).completed = true ∧
    (∃ dst, Event.transferred false ["src", "a.jpg"] dst ∈
      (group_run envAllOk (groupConfig false) ["out"] mapW fsOut
        [(["src", "a.jpg"], dMay1), (["src", "b.jpg"], dJun1)]).events) ∧
    group_step envAllOk (groupConfig false) ["out"] mapW fsOut (["src", "b.jpg"], dJun1) =
      ⟨fsOut, [], none⟩ := by
  have h := group_mapped_placed_unmapped_skipped envAllOk false ["out"] mapW fsOut
    [(["src", "a.jpg"], dMay1), (["src", "b.jpg"], dJun1)]
    (by decide) (fun s d => rfl) (fun p => rfl)
  exact ⟨by decide, h.2.1,
    h.2.2.1 (["src", "a.jpg"], dMay1) (by decide) (by decide),
    h.2.2.2 fsOut (["src", "b.jpg"], dJun1) (by decide)⟩

/-- C8 counterexample: with a non-writable destination, the single mapped
file's placement raises and the run ends without the completion message, so
completion is not emitted unconditionally as the claim states. -/
theorem group_completion_counterexample :
    (group_run envNoWrite (groupConfig false) ["out"] mapW fsOut
      [(["src", "a.jpg"], dMay1)]).completed = false ∧
    (group_run envNoWrite (groupConfig false) ["out"] mapW fsOut
      [(["src", "a.jpg"], dMay1)]).err = some .permission := by
  exact ⟨by decide, by decide⟩

/-! ### Falsy mapping entries behave like missing entries (C10) -/

theorem group_step_congr (env : Env) (cfg : Config) (dest : PyPath)
    (m1 m2 : String → Option JsonVal) (fs : FS) (x : PyPath × PyDateTime)
    (h : m1 (strftimeYMD (truncateDay x.2)) = m2 (strftimeYMD (truncateDay x.2))) :
    group_step env cfg dest m1 fs x = group_step env cfg dest m2 fs x := by
  simp only [group_step]
  rw [h]

/-- C10: a mapping entry that is JSON `null` or the empty string is handled
exactly like a missing entry — the affected file's step changes nothing,
raises nothing and creates no folder, and the whole run is identical to the
run with that entry deleted from the mapping. -/
theorem falsy_mapping_like_missing (env : Env) (cfg : Config) (dest : PyPath)
    (mapping : String → Option JsonVal) (fs : FS)
    (items : List (PyPath × PyDateTime)) (k : String)
    (hk : mapping k = some .null ∨ mapping k = some (.str "")) :
    (∀ (fs2 : FS) (x : PyPath × PyDateTime), strftimeYMD (truncateDay x.2) = k →
      group_step env cfg dest mapping fs2 x = ⟨fs2, [], none⟩) ∧
    group_run env cfg dest (fun j => if j = k then none else mapping j) fs items =
      group_run env cfg dest mapping fs items := by
  have htr : truthyLabel (mapping k) = none := by
    rcases hk with hk | hk <;> rw [hk] <;> rfl
  constructor
  · intro fs2 x hds
    apply group_step_skip
    rw [hds]
    exact htr
  · have hrun : ∀ (its : List (PyPath × PyDateTime)) (fs0 : FS),
        group_run env cfg dest (fun j => if j = k then none else mapping j) fs0 its =
          group_run env cfg dest mapping fs0 its := by
      intro its
      induction its with
      | nil => intro fs0; rfl
      | cons x rest ih =>
        intro fs0
        by_cases hds : strftimeYMD (truncateDay x.2) = k
        · have h1 : truthyLabel ((fun j => if j = k then none else mapping j)
              (strftimeYMD (truncateDay x.2))) = none := by
            rw [hds]
            simp [truthyLabel]
          have h2 : truthyLabel (mapping (strftimeYMD (truncateDay x.2))) = none := by
            rw [hds]
            exact htr
          have hs1 := group_step_skip env cfg dest
            (fun j => if j = k then none else mapping j) fs0 x h1
          have hs2 := group_step_skip env cfg dest mapping fs0 x h2
          rw [group_run_cons_ok env cfg dest _ fs0 x rest (by rw [hs1]),
            group_run_cons_ok env cfg dest mapping fs0 x rest (by rw [hs2]),
            hs1, hs2, ih fs0]
        · have hagree : (fun j => if j = k then none else mapping j)
              (strftimeYMD (truncateDay x.2)) =
              mapping (strftimeYMD (truncateDay x.2)) := by
            simp [hds]
          have hstep := group_step_congr env cfg dest
            (fun j => if j = k then none else mapping j) mapping fs0 x hagree
          cases herr : (group_step env cfg dest mapping fs0 x).err with
          | some e =>
            rw [group_run_cons_err env cfg dest _ fs0 x rest e (by rw [hstep]; exact herr),
              group_run_cons_err env cfg dest mapping fs0 x rest e herr, hstep]
          | none =>
            rw [group_run_cons_ok env cfg dest _ fs0 x rest (by rw [hstep]; exact herr),
              group_run_cons_ok env cfg dest mapping fs0 x rest herr, hstep, ih]
    exact hrun items fs

/-- Witness for C10: an empty-string entry for `20230501` makes that date's
file a no-op, and deleting the entry leaves the run unchanged. -/
theorem falsy_mapping_like_missing_witness :
    (mapEmpty "20230501" = some (.str "")) ∧
    group_step envAllOk (groupConfig false) ["out"] mapEmpty fsOut
      (["src", "a.jpg"], dMay1) = ⟨fsOut, [], none⟩ ∧
    group_run envAllOk (groupConfig false) ["out"]
        (fun j => if j = "20230501" then none else mapEmpty j) fsOut
        [(["src", "a.jpg"], dMay1)] =
      group_run envAllOk (groupConfig false) ["out"] mapEmpty fsOut
        [(["src", "a.jpg"], dMay1)] := by
  have h := falsy_mapping_like_missing envAllOk (groupConfig false) ["out"] mapEmpty fsOut
    [(["src", "a.jpg"], dMay1)] "20230501" (Or.inr (by decide))
  exact ⟨by decide, h.1 fsOut (["src", "a.jpg"], dMay1) (by decide), h.2⟩

/-! ### Project-label validation (C9) -/

theorem promptLoop_valid (cfg : Config) (rs : List String) (r : String)
    (h : promptLoop cfg rs = some r) :
    r.data.length ≤ cfg.max_project_name_length ∧ pyStrip r ≠ "" := by
  have hp := List.find?_some h
  simp only [Bool.and_eq_true, Bool.not_eq_true', decide_eq_false_iff_not,
    not_lt] at hp
  constructor
  · have := hp.1
    omega
  · exact hp.2

theorem assignLoop_valid (cfg : Config) (responses : PyDateTime → List String) :
    ∀ (ds : List PyDateTime) (m : List (String × String)),
      assignLoop cfg responses ds = some m →
      ∀ p ∈ m, p.2.data.length ≤ cfg.max_project_name_length ∧ pyStrip p.2 ≠ "" := by
  intro ds
  induction ds with
  | nil =>
    intro m h p hp
    simp [assignLoop] at h
    rw [h] at hp
    cases hp
  | cons d ds ih =>
    intro m h p hp
    unfold assignLoop at h
    cases hr : promptLoop cfg (responses d) with
    | none => rw [hr] at h; cases h
    | some r =>
      rw [hr] at h
      cases hrest : assignLoop cfg responses ds with
      | none => rw [hrest] at h; cases h
      | some rest =>
        rw [hrest] at h
        simp only [Option.some.injEq] at h
        rw [← h] at hp
        rcases List.mem_cons.mp hp with hpr | hpm
        · rw [hpr]
          exact promptLoop_valid cfg (responses d) r hr
        · exact ih rest hrest p hpm

/-- C9 (amended): only interactively prompted labels are validated — an
accepted prompt response is no longer than the configured maximum and
non-empty after stripping, and so is every label produced by the per-date
interactive assignment; a configured uniform name, by contrast, is passed
through to every date with no validation at all (and the `group` mapping-file
labels are likewise used unvalidated, as the counterexample shows). -/
theorem project_label_validation (cfg : Config) (dates : List PyDateTime)
    (responses : PyDateTime → List String) (m : List (String × String)) (n : String) :
    (∀ rs r, promptLoop cfg rs = some r →
      r.data.length ≤ cfg.max_project_name_length ∧ pyStrip r ≠ "") ∧
    (cfg.name = none → get_project_names_for_all_dates cfg dates responses = some m →
      ∀ p ∈ m, p.2.data.length ≤ cfg.max_project_name_length ∧ pyStrip p.2 ≠ "") ∧
    (cfg.name = some n →
      get_project_names_for_all_dates cfg dates responses =
        some (dates.map (fun d => (strftimeYMD d, n)))) := by
  refine ⟨fun rs r h => promptLoop_valid cfg rs r h, ?_, ?_⟩
  · intro hname h
    unfold get_project_names_for_all_dates at h
    rw [hname] at h
    exact assignLoop_valid cfg responses (sortDates dates) m h
  · intro hname
    unfold get_project_names_for_all_dates
    rw [hname]

/-- Witness for C9: an interactive session that first answers with an empty
string is re-prompted, and the accepted second answer is valid. -/
theorem project_label_validation_witness :
    (Config.default.name = none) ∧
    get_project_names_for_all_dates Config.default [dMay1] (fun _ => ["", "ok"]) =
      some [("20230501", "ok")] ∧
    ("ok" : String).data.length ≤ Config.default.max_project_name_length ∧
    pyStrip "ok" ≠ "" := by
  have h := (project_label_validation Config.default [dMay1] (fun _ => ["", "ok"])
    [("20230501", "ok")] "x").2.1 rfl (by decide)
  refine ⟨rfl, by decide, ?_⟩
  exact h ("20230501", "ok") (by decide)

/-- C9 counterexample: a `group` run takes a whitespace-only project label —
blank after trimming, hence invalid by the claim — straight from the mapping
file into the Placement Engine: the folder `20230501_ ` is created and the
file is placed beneath it. -/
theorem project_label_validation_counterexample :
    (pyStrip " " = "") ∧
    group_run envAllOk (groupConfig false) ["out"] mapBlank fsOut
      [(["src", "a.jpg"], dMay1)] =
      ⟨⟨[["out", "20230501_ ", "20230501_ _a.jpg"]], [["out", "20230501_ "], ["out"]]⟩,
       [.createdFolderLog ["out", "20230501_ "], .probe ["out", "20230501_ "],
        .transferred false ["src", "a.jpg"] ["out", "20230501_ ", "20230501_ _a.jpg"],
        .echoCompleted],
       none, true⟩ := by
  exact ⟨by decide, by decide⟩
